import Mathlib

/-!
Verification of the netmap capture engine (`src/source-netmap.c`).

The development shallowly embeds the data model and the operations of the
capture core: the per-slot/per-ring netmap descriptors, the IPS forwarding
release hook (`NetmapWritePacket` / `NetmapReleasePacket`), the thread
ring-range computation of `ReceiveNetmapThreadInit`, the reference-counted
device registry (`NetmapOpen` / `NetmapClose`), the ring-open rollback of
`NetmapOpen`, the ring drain (`NetmapRingRead`) and the counter flush
(`NetmapDumpCounters`).  Machine integers are modelled as `Nat`, with an
explicit `% 2^32` where 32-bit wrap-around matters (the device refcount).
Kernel-side effects (ioctl, mmap, poll, the packet pool, the downstream
slot) are modelled as boolean oracles supplied by an environment record.
-/

namespace Netmap

/-! ### Generic list helper lemmas -/

theorem getD_set_self {α : Type} (l : List α) (i : Nat) (a d : α)
    (h : i < l.length) : (l.set i a).getD i d = a := by
  induction l generalizing i with
  | nil => simp at h
  | cons x xs ih =>
    cases i with
    | zero => rfl
    | succ n =>
      have h' : n < xs.length := by simp at h; omega
      simpa [List.set, List.getD] using ih n h'

theorem getD_set_ne {α : Type} (l : List α) (i j : Nat) (a d : α)
    (h : i ≠ j) : (l.set i a).getD j d = l.getD j d := by
  induction l generalizing i j with
  | nil => rfl
  | cons x xs ih =>
    cases i with
    | zero =>
      cases j with
      | zero => exact absurd rfl h
      | succ m => rfl
    | succ n =>
      cases j with
      | zero => rfl
      | succ m =>
        have h' : n ≠ m := fun he => h (by simp [he])
        simpa [List.set, List.getD] using ih n m h'

theorem length_set_eq {α : Type} (l : List α) (i : Nat) (a : α) :
    (l.set i a).length = l.length := by
  induction l generalizing i with
  | nil => rfl
  | cons x xs ih =>
    cases i with
    | zero => rfl
    | succ n => simp [List.set, ih n]

/-- Setting index `i` of a list changes the multiset of mapped values by
removing the old image and adding the new one. -/
theorem multiset_map_set {α β : Type} (f : α → β) (l : List α) (i : Nat)
    (a d : α) (h : i < l.length) :
    f (l.getD i d) ::ₘ (((l.set i a).map f : List β) : Multiset β)
      = f a ::ₘ ((l.map f : List β) : Multiset β) := by
  induction l generalizing i with
  | nil => simp at h
  | cons x xs ih =>
    cases i with
    | zero =>
      show f x ::ₘ ((f a :: xs.map f : List β) : Multiset β)
          = f a ::ₘ ((f x :: xs.map f : List β) : Multiset β)
      rw [← Multiset.cons_coe, ← Multiset.cons_coe]
      exact Multiset.cons_swap _ _ _
    | succ n =>
      have h' : n < xs.length := by simpa using h
      have e := ih n h'
      show f (xs.getD n d) ::ₘ ((f x :: (xs.set n a).map f : List β) : Multiset β)
          = f a ::ₘ ((f x :: xs.map f : List β) : Multiset β)
      rw [← Multiset.cons_coe, ← Multiset.cons_coe, Multiset.cons_swap, e,
        Multiset.cons_swap]

/-- Exchanging one element of each of two lists leaves the combined multiset
of mapped values unchanged when the images swap places. -/
theorem swap_preserves_multiset {α β : Type} (f : α → β) (l₁ l₂ : List α)
    (i j : Nat) (a b d : α) (h₁ : i < l₁.length) (h₂ : j < l₂.length)
    (hab : f a = f (l₂.getD j d)) (hba : f b = f (l₁.getD i d)) :
    ((((l₁.set i a).map f : List β) : Multiset β)
        + (((l₂.set j b).map f : List β) : Multiset β))
      = (((l₁.map f : List β) : Multiset β)
        + ((l₂.map f : List β) : Multiset β)) := by
  have e₁ := multiset_map_set f l₁ i a d h₁
  have e₂ := multiset_map_set f l₂ j b d h₂
  rw [hab] at e₁
  rw [hba] at e₂
  have h₃ : (f (l₁.getD i d) ::ₘ (((l₁.set i a).map f : List β) : Multiset β))
        + (f (l₂.getD j d) ::ₘ (((l₂.set j b).map f : List β) : Multiset β))
      = (f (l₂.getD j d) ::ₘ ((l₁.map f : List β) : Multiset β))
        + (f (l₁.getD i d) ::ₘ ((l₂.map f : List β) : Multiset β)) := by
    rw [e₁, e₂]
  rw [Multiset.cons_add, Multiset.add_cons, Multiset.cons_add,
    Multiset.add_cons] at h₃
  rw [Multiset.cons_swap] at h₃
  exact (Multiset.cons_inj_right _).mp ((Multiset.cons_inj_right _).mp h₃)

/-! ### Netmap ring data model

`struct netmap_slot` carries `buf_idx`, `len` and `flags`; a
`struct netmap_ring` exposes `head`, `cur`, `tail`, `num_slots` and the
slot array.  `nm_ring_space` and `nm_ring_next` are the ring helpers used
by the source (`tail - cur` modulo the slot count, and the circular
successor). -/

/-- One netmap slot (`struct netmap_slot`). -/
structure NetmapSlot where
  buf_idx : Nat
  len : Nat
  flags : Nat
  deriving Repr, DecidableEq, Inhabited

/-- The `NS_BUF_CHANGED` per-slot flag. -/
def NS_BUF_CHANGED : Nat := 1

/-- One netmap ring descriptor (`struct netmap_ring`). -/
structure NetmapRingDesc where
  head : Nat
  cur : Nat
  tail : Nat
  num_slots : Nat
  slot : List NetmapSlot
  deriving Repr, DecidableEq, Inhabited

/-- `nm_ring_space`: number of slots available between `cur` and `tail`,
accounting for wrap-around. -/
def nm_ring_space (r : NetmapRingDesc) : Nat :=
  if r.cur ≤ r.tail then r.tail - r.cur else r.tail + r.num_slots - r.cur

/-- `nm_ring_next`: circular successor of slot index `i`. -/
def nm_ring_next (r : NetmapRingDesc) (i : Nat) : Nat :=
  if i + 1 = r.num_slots then 0 else i + 1

/-- One ring pair of a device (`NetmapRing` in the source; the `fd` and the
spinlock are not part of the sequential model). -/
structure NetmapRing where
  rx : NetmapRingDesc
  tx : NetmapRingDesc
  deriving Repr, DecidableEq, Inhabited

/-- A netmap device as seen by the forwarding path: its ring array
(`rings_cnt` is the length of `rings`). -/
structure NetmapDevice where
  ifname : String
  rings : List NetmapRing
  deriving Repr, DecidableEq, Inhabited

/-- Copy mode (`NETMAP_COPY_MODE_*`). -/
inductive CopyMode where
  | NONE
  | TAP
  | IPS
  deriving Repr, DecidableEq

/-- Thread-module return codes. -/
inductive TmEcode where
  | OK
  | FAILED
  deriving Repr, DecidableEq

/-- The fields of `NetmapThreadVars` used by the release hook and the
counter flush.  When the configured source and destination interface are
the same device the two records here are separate copies; the release hook
only reads the RX side of `ifsrc` and the TX side of `ifdst`, which are
disjoint descriptors even in that case. -/
structure NetmapThreadVars where
  ifsrc : NetmapDevice
  ifdst : NetmapDevice
  copy_mode : CopyMode
  pkts : Nat
  bytes : Nat
  drops : Nat
  deriving Repr, DecidableEq

/-- A zero-copy packet descriptor: the `netmap_v` back-reference
(`ring_id`, `slot_id`), the DROP verdict bit and the pseudo-packet bit. -/
structure Packet where
  ring_id : Nat
  slot_id : Nat
  action_drop : Bool
  pseudo : Bool
  deriving Repr, DecidableEq

/-! ### IPS forwarding path (`NetmapWritePacket`, `NetmapReleasePacket`) -/

/-- The successful swap branch of `NetmapWritePacket` (lines 627-641):
exchange `buf_idx` between the source RX slot and the TX slot at `tx.cur`,
copy `len`, set `NS_BUF_CHANGED` on both slots and advance
`tx.head = tx.cur = nm_ring_next(tx, tx.cur)`. -/
def netmapForwardSwap (ntv : NetmapThreadVars) (p : Packet) : NetmapThreadVars :=
  let dst_ring_id := p.ring_id % ntv.ifdst.rings.length
  let txr := ntv.ifdst.rings.getD dst_ring_id default
  let rxr := ntv.ifsrc.rings.getD p.ring_id default
  let rs := rxr.rx.slot.getD p.slot_id default
  let ts := txr.tx.slot.getD txr.tx.cur default
  let rs' : NetmapSlot :=
    { rs with buf_idx := ts.buf_idx, flags := rs.flags ||| NS_BUF_CHANGED }
  let ts' : NetmapSlot :=
    { ts with buf_idx := rs.buf_idx, len := rs.len,
              flags := ts.flags ||| NS_BUF_CHANGED }
  let newcur := nm_ring_next txr.tx txr.tx.cur
  { ntv with
    ifsrc := { ntv.ifsrc with
      rings := ntv.ifsrc.rings.set p.ring_id
        { rxr with rx := { rxr.rx with
            slot := rxr.rx.slot.set p.slot_id rs' } } }
    ifdst := { ntv.ifdst with
      rings := ntv.ifdst.rings.set dst_ring_id
        { txr with tx := { txr.tx with
            slot := txr.tx.slot.set txr.tx.cur ts',
            head := newcur, cur := newcur } } } }

/-- `NetmapWritePacket` (lines 606-646): in IPS mode a DROP verdict skips
forwarding; otherwise, if the destination TX ring has no space the drop
counter is incremented and the call fails; otherwise the buffers are
swapped. -/
def NetmapWritePacket (ntv : NetmapThreadVars) (p : Packet) :
    NetmapThreadVars × TmEcode :=
  if ntv.copy_mode = CopyMode.IPS ∧ p.action_drop = true then
    (ntv, TmEcode.OK)
  else if nm_ring_space
      (ntv.ifdst.rings.getD (p.ring_id % ntv.ifdst.rings.length) default).tx
      = 0 then
    ({ ntv with drops := ntv.drops + 1 }, TmEcode.FAILED)
  else
    (netmapForwardSwap ntv p, TmEcode.OK)

/-- `NetmapReleasePacket` (lines 652-663): forward through
`NetmapWritePacket` when a copy mode is active and the packet is not a
pseudo packet, then return the packet to its pool (the `Bool` component
records that `PacketFreeOrRelease` ran). -/
def NetmapReleasePacket (ntv : NetmapThreadVars) (p : Packet) :
    NetmapThreadVars × Bool :=
  if ntv.copy_mode ≠ CopyMode.NONE ∧ p.pseudo = false then
    ((NetmapWritePacket ntv p).1, true)
  else
    (ntv, true)

/-- The source RX slot addressed by the packet's `{ring_id, slot_id}`. -/
def srcRxSlot (ntv : NetmapThreadVars) (p : Packet) : NetmapSlot :=
  (ntv.ifsrc.rings.getD p.ring_id default).rx.slot.getD p.slot_id default

/-- The destination TX ring selected by `ring_id % rings_cnt`. -/
def dstTxRing (ntv : NetmapThreadVars) (p : Packet) : NetmapRingDesc :=
  (ntv.ifdst.rings.getD (p.ring_id % ntv.ifdst.rings.length) default).tx

/-- Slot `i` of the destination TX ring. -/
def dstTxSlotAt (ntv : NetmapThreadVars) (p : Packet) (i : Nat) : NetmapSlot :=
  (dstTxRing ntv p).slot.getD i default

/-- Reaching the swap branch: `NetmapWritePacket` reduces to
`netmapForwardSwap` when the skip and TX-full branches are not taken. -/
theorem netmapWritePacket_swap_eq (ntv : NetmapThreadVars) (p : Packet)
    (hnd : ¬(ntv.copy_mode = CopyMode.IPS ∧ p.action_drop = true))
    (hspace : nm_ring_space (dstTxRing ntv p) ≠ 0) :
    NetmapWritePacket ntv p = (netmapForwardSwap ntv p, TmEcode.OK) := by
  unfold NetmapWritePacket
  rw [if_neg hnd, if_neg (by simpa [dstTxRing] using hspace)]

/-! ### Concrete states used by the witness theorems -/

/-- A populated RX ring with four slots, two of them ready. -/
def rxRingW : NetmapRingDesc :=
  ⟨0, 0, 2, 4, [⟨10, 100, 0⟩, ⟨11, 101, 0⟩, ⟨12, 102, 0⟩, ⟨13, 103, 0⟩]⟩

/-- A TX ring with one free slot. -/
def txRingFreeW : NetmapRingDesc := ⟨0, 0, 1, 2, [⟨20, 0, 0⟩, ⟨21, 0, 0⟩]⟩

/-- A TX ring with no free slot (`tail == cur`). -/
def txRingFullW : NetmapRingDesc := ⟨0, 0, 0, 2, [⟨20, 0, 0⟩, ⟨21, 0, 0⟩]⟩

/-- An idle RX ring on the destination device. -/
def idleRxW : NetmapRingDesc := ⟨0, 0, 0, 2, [⟨30, 0, 0⟩, ⟨31, 0, 0⟩]⟩

def srcDevW : NetmapDevice := ⟨"em0", [⟨rxRingW, txRingFullW⟩]⟩

def dstDevFreeW : NetmapDevice := ⟨"em1", [⟨idleRxW, txRingFreeW⟩]⟩

def dstDevFullW : NetmapDevice := ⟨"em1", [⟨idleRxW, txRingFullW⟩]⟩

def ntvFreeW : NetmapThreadVars := ⟨srcDevW, dstDevFreeW, CopyMode.IPS, 5, 500, 2⟩

def ntvFullW : NetmapThreadVars := ⟨srcDevW, dstDevFullW, CopyMode.IPS, 5, 500, 2⟩

def pktPassW : Packet := ⟨0, 1, false, false⟩

def pktDropW : Packet := ⟨0, 1, true, false⟩

/-! ### C1 - C4: release-hook behaviour -/

/-- C1: for a zero-copy packet released in a forwarding mode with a
non-DROP verdict, when the destination TX ring has at least one free
slot, the release swaps `buf_idx` between the source RX slot (addressed
by the packet's `ring_id`/`slot_id`) and the TX slot at the old `tx.cur`,
copies the RX slot's `len` into that TX slot, sets `NS_BUF_CHANGED` on
both slots, and advances `tx.head` and `tx.cur` to `next(old tx.cur)`. -/
theorem netmapRelease_forward_swap (ntv : NetmapThreadVars) (p : Packet)
    (hmode : ntv.copy_mode ≠ CopyMode.NONE)
    (hps : p.pseudo = false)
    (hdrop : p.action_drop = false)
    (hr : p.ring_id < ntv.ifsrc.rings.length)
    (hd : 0 < ntv.ifdst.rings.length)
    (hs : p.slot_id < (ntv.ifsrc.rings.getD p.ring_id default).rx.slot.length)
    (hc : (dstTxRing ntv p).cur < (dstTxRing ntv p).slot.length)
    (hspace : nm_ring_space (dstTxRing ntv p) ≠ 0) :
    (srcRxSlot (NetmapReleasePacket ntv p).1 p).buf_idx
        = (dstTxSlotAt ntv p (dstTxRing ntv p).cur).buf_idx ∧
    (dstTxSlotAt (NetmapReleasePacket ntv p).1 p (dstTxRing ntv p).cur).buf_idx
        = (srcRxSlot ntv p).buf_idx ∧
    (dstTxSlotAt (NetmapReleasePacket ntv p).1 p (dstTxRing ntv p).cur).len
        = (srcRxSlot ntv p).len ∧
    (dstTxSlotAt (NetmapReleasePacket ntv p).1 p (dstTxRing ntv p).cur).flags
        = (dstTxSlotAt ntv p (dstTxRing ntv p).cur).flags ||| NS_BUF_CHANGED ∧
    (srcRxSlot (NetmapReleasePacket ntv p).1 p).flags
        = (srcRxSlot ntv p).flags ||| NS_BUF_CHANGED ∧
    (dstTxRing (NetmapReleasePacket ntv p).1 p).head
        = nm_ring_next (dstTxRing ntv p) (dstTxRing ntv p).cur ∧
    (dstTxRing (NetmapReleasePacket ntv p).1 p).cur
        = nm_ring_next (dstTxRing ntv p) (dstTxRing ntv p).cur ∧
    (NetmapReleasePacket ntv p).2 = true := by
  have hnd : ¬(ntv.copy_mode = CopyMode.IPS ∧ p.action_drop = true) := by
    intro hcd
    rw [hdrop] at hcd
    exact Bool.false_ne_true hcd.2
  have hrel : NetmapReleasePacket ntv p = (netmapForwardSwap ntv p, true) := by
    unfold NetmapReleasePacket
    rw [if_pos ⟨hmode, hps⟩, netmapWritePacket_swap_eq ntv p hnd hspace]
  rw [hrel]
  have hdlt : p.ring_id % ntv.ifdst.rings.length < ntv.ifdst.rings.length :=
    Nat.mod_lt _ hd
  simp only [netmapForwardSwap, srcRxSlot, dstTxRing, dstTxSlotAt,
    length_set_eq]
  rw [getD_set_self _ _ _ _ hr, getD_set_self _ _ _ _ hdlt]
  simp only []
  rw [getD_set_self _ _ _ _ hs, getD_set_self _ _ _ _ (by simpa [dstTxRing] using hc)]
  simp only [dstTxRing] at *
  exact ⟨trivial, trivial, trivial, trivial, trivial, trivial, trivial, trivial⟩

/-- C1 witness: the swap observed on a concrete state (RX slot 1 with
`buf_idx` 11 and len 101, TX slot 0 previously holding `buf_idx` 20). -/
theorem netmapRelease_forward_swap_witness :
    (srcRxSlot (NetmapReleasePacket ntvFreeW pktPassW).1 pktPassW).buf_idx = 20 ∧
    (dstTxSlotAt (NetmapReleasePacket ntvFreeW pktPassW).1 pktPassW 0).buf_idx = 11 ∧
    (dstTxSlotAt (NetmapReleasePacket ntvFreeW pktPassW).1 pktPassW 0).len = 101 ∧
    (dstTxSlotAt (NetmapReleasePacket ntvFreeW pktPassW).1 pktPassW 0).flags
      = 0 ||| NS_BUF_CHANGED ∧
    (srcRxSlot (NetmapReleasePacket ntvFreeW pktPassW).1 pktPassW).flags
      = 0 ||| NS_BUF_CHANGED ∧
    (dstTxRing (NetmapReleasePacket ntvFreeW pktPassW).1 pktPassW).head
      = nm_ring_next (dstTxRing ntvFreeW pktPassW) 0 ∧
    (dstTxRing (NetmapReleasePacket ntvFreeW pktPassW).1 pktPassW).cur
      = nm_ring_next (dstTxRing ntvFreeW pktPassW) 0 ∧
    (NetmapReleasePacket ntvFreeW pktPassW).2 = true :=
  netmapRelease_forward_swap ntvFreeW pktPassW (by decide) (by decide)
    (by decide) (by decide) (by decide) (by decide) (by decide) (by decide)

/-- C2: a forwarding release that performs the swap preserves the multiset
of `buf_idx` values over the source RX ring together with the destination
TX ring: the two affected slots exchange their buffer indices, so no index
is created, duplicated or lost. -/
theorem netmapWrite_swap_buf_multiset (ntv : NetmapThreadVars) (p : Packet)
    (hnd : ¬(ntv.copy_mode = CopyMode.IPS ∧ p.action_drop = true))
    (hr : p.ring_id < ntv.ifsrc.rings.length)
    (hd : 0 < ntv.ifdst.rings.length)
    (hs : p.slot_id < (ntv.ifsrc.rings.getD p.ring_id default).rx.slot.length)
    (hc : (dstTxRing ntv p).cur < (dstTxRing ntv p).slot.length)
    (hspace : nm_ring_space (dstTxRing ntv p) ≠ 0) :
    (((((NetmapWritePacket ntv p).1.ifsrc.rings.getD p.ring_id default).rx.slot.map
          NetmapSlot.buf_idx : List Nat) : Multiset Nat)
      + ((((NetmapWritePacket ntv p).1.ifdst.rings.getD
            (p.ring_id % ntv.ifdst.rings.length) default).tx.slot.map
          NetmapSlot.buf_idx : List Nat) : Multiset Nat))
    = ((((ntv.ifsrc.rings.getD p.ring_id default).rx.slot.map
          NetmapSlot.buf_idx : List Nat) : Multiset Nat)
      + (((ntv.ifdst.rings.getD (p.ring_id % ntv.ifdst.rings.length)
            default).tx.slot.map NetmapSlot.buf_idx : List Nat) : Multiset Nat)) := by
  rw [netmapWritePacket_swap_eq ntv p hnd hspace]
  have hdlt : p.ring_id % ntv.ifdst.rings.length < ntv.ifdst.rings.length :=
    Nat.mod_lt _ hd
  simp only [netmapForwardSwap]
  rw [getD_set_self _ _ _ _ hr, getD_set_self _ _ _ _ hdlt]
  simp only []
  exact swap_preserves_multiset NetmapSlot.buf_idx _ _ _ _ _ _ default hs
    (by simpa [dstTxRing] using hc) rfl rfl

/-- C2 witness: on the concrete state the combined multiset of buffer
indices over RX ring 0 and TX ring 0 is unchanged by the swap. -/
theorem netmapWrite_swap_buf_multiset_witness :
    (((((NetmapWritePacket ntvFreeW pktPassW).1.ifsrc.rings.getD 0
          default).rx.slot.map NetmapSlot.buf_idx : List Nat) : Multiset Nat)
      + ((((NetmapWritePacket ntvFreeW pktPassW).1.ifdst.rings.getD 0
            default).tx.slot.map NetmapSlot.buf_idx : List Nat) : Multiset Nat))
    = ((((ntvFreeW.ifsrc.rings.getD 0 default).rx.slot.map
          NetmapSlot.buf_idx : List Nat) : Multiset Nat)
      + (((ntvFreeW.ifdst.rings.getD 0 default).tx.slot.map
          NetmapSlot.buf_idx : List Nat) : Multiset Nat)) :=
  netmapWrite_swap_buf_multiset ntvFreeW pktPassW (by decide) (by decide)
    (by decide) (by decide) (by decide) (by decide)

/-- C3: in IPS copy mode a packet that carries action DROP is not
forwarded: the release leaves the whole thread state unchanged (in
particular the source RX slot's `buf_idx`, the destination TX ring's
`cur` and `head`, and the `drops` counter) and still returns the packet
to its pool. -/
theorem netmapRelease_ips_drop (ntv : NetmapThreadVars) (p : Packet)
    (hips : ntv.copy_mode = CopyMode.IPS)
    (hdrop : p.action_drop = true) :
    NetmapReleasePacket ntv p = (ntv, true) ∧
    (NetmapReleasePacket ntv p).1.ifsrc = ntv.ifsrc ∧
    (NetmapReleasePacket ntv p).1.ifdst = ntv.ifdst ∧
    (NetmapReleasePacket ntv p).1.drops = ntv.drops ∧
    (NetmapReleasePacket ntv p).2 = true := by
  have hrel : NetmapReleasePacket ntv p = (ntv, true) := by
    unfold NetmapReleasePacket
    by_cases hps : p.pseudo = false
    · rw [if_pos ⟨by simp [hips], hps⟩]
      unfold NetmapWritePacket
      rw [if_pos ⟨hips, hdrop⟩]
    · rw [if_neg (by intro hcd; exact hps hcd.2)]
  exact ⟨hrel, by rw [hrel], by rw [hrel], by rw [hrel], by rw [hrel]⟩

/-- C3 witness: a DROP-verdict packet released in IPS mode leaves the
concrete state untouched and is still freed. -/
theorem netmapRelease_ips_drop_witness :
    NetmapReleasePacket ntvFullW pktDropW = (ntvFullW, true) ∧
    (NetmapReleasePacket ntvFullW pktDropW).1.ifsrc = ntvFullW.ifsrc ∧
    (NetmapReleasePacket ntvFullW pktDropW).1.ifdst = ntvFullW.ifdst ∧
    (NetmapReleasePacket ntvFullW pktDropW).1.drops = ntvFullW.drops ∧
    (NetmapReleasePacket ntvFullW pktDropW).2 = true :=
  netmapRelease_ips_drop ntvFullW pktDropW (by decide) (by decide)

/-- C4: a forwarding release that finds the destination TX ring with no
free slots (`nm_ring_space == 0`) increments the thread's `drops` counter
by exactly one, performs no swap (both devices are unchanged), reports
failure, and the packet is still returned to its pool. -/
theorem netmapRelease_txfull (ntv : NetmapThreadVars) (p : Packet)
    (hmode : ntv.copy_mode ≠ CopyMode.NONE)
    (hps : p.pseudo = false)
    (hnd : ¬(ntv.copy_mode = CopyMode.IPS ∧ p.action_drop = true))
    (hfull : nm_ring_space (dstTxRing ntv p) = 0) :
    NetmapWritePacket ntv p
      = ({ ntv with drops := ntv.drops + 1 }, TmEcode.FAILED) ∧
    NetmapReleasePacket ntv p = ({ ntv with drops := ntv.drops + 1 }, true) ∧
    (NetmapWritePacket ntv p).1.ifsrc = ntv.ifsrc ∧
    (NetmapWritePacket ntv p).1.ifdst = ntv.ifdst ∧
    (NetmapWritePacket ntv p).1.drops = ntv.drops + 1 := by
  have hw : NetmapWritePacket ntv p
      = ({ ntv with drops := ntv.drops + 1 }, TmEcode.FAILED) := by
    unfold NetmapWritePacket
    rw [if_neg hnd, if_pos (by simpa [dstTxRing] using hfull)]
  refine ⟨hw, ?_, by rw [hw], by rw [hw], by rw [hw]⟩
  unfold NetmapReleasePacket
  rw [if_pos ⟨hmode, hps⟩, hw]

/-- C4 witness: on the concrete state with a full TX ring, the release
only bumps `drops` from 2 to 3 and reports failure. -/
theorem netmapRelease_txfull_witness :
    NetmapWritePacket ntvFullW pktPassW
      = ({ ntvFullW with drops := ntvFullW.drops + 1 }, TmEcode.FAILED) ∧
    NetmapReleasePacket ntvFullW pktPassW
      = ({ ntvFullW with drops := ntvFullW.drops + 1 }, true) ∧
    (NetmapWritePacket ntvFullW pktPassW).1.ifsrc = ntvFullW.ifsrc ∧
    (NetmapWritePacket ntvFullW pktPassW).1.ifdst = ntvFullW.ifdst ∧
    (NetmapWritePacket ntvFullW pktPassW).1.drops = ntvFullW.drops + 1 :=
  netmapRelease_txfull ntvFullW pktPassW (by decide) (by decide) (by decide)
    (by decide)

/-! ### C5 - C6: thread ring-range assignment (`ReceiveNetmapThreadInit`) -/

/-- Outcome of the thread-count check and ring-range computation. -/
inductive InitResult where
  | ok (ring_from ring_to : Nat)
  | tooManyThreads
  deriving Repr, DecidableEq

/-- Ring-range computation of `ReceiveNetmapThreadInit` (lines 531-548):
fail when the configured thread count exceeds the ring count (checked
before the slot-claiming CAS loop); otherwise
`tmp = rings_cnt / threads`, `ring_from = thread_idx * tmp`,
`ring_to = ring_from + tmp - 1`, clamped down to `rings_cnt - 1`. -/
def computeRingRange (rings_cnt threads thread_idx : Nat) : InitResult :=
  if threads > rings_cnt then
    InitResult.tooManyThreads
  else
    let tmp := rings_cnt / threads
    let ring_from := thread_idx * tmp
    let ring_to0 := ring_from + tmp - 1
    InitResult.ok ring_from
      (if ring_to0 ≥ rings_cnt then rings_cnt - 1 else ring_to0)

/-- C6: with `1 ≤ T`, a binding with slot `s`, ring count `R` and thread
count `T ≤ R` gets `ring_from = s * (R / T)` and
`ring_to = min (ring_from + R / T - 1) (R - 1)`; with `T > R` the
initialization fails with the too-many-threads error before claiming a
slot. -/
theorem computeRingRange_formula (R T s : Nat) (hT : 1 ≤ T) :
    (T ≤ R → computeRingRange R T s
        = InitResult.ok (s * (R / T)) (min (s * (R / T) + R / T - 1) (R - 1))) ∧
    (T > R → computeRingRange R T s = InitResult.tooManyThreads) := by
  constructor
  · intro hTR
    unfold computeRingRange
    rw [if_neg (by omega)]
    simp only [InitResult.ok.injEq]
    refine ⟨trivial, ?_⟩
    have hR : 1 ≤ R := le_trans hT hTR
    rw [Nat.min_def]
    split <;> split <;> omega
  · intro hTR
    unfold computeRingRange
    rw [if_pos hTR]

/-- C6 witness: 4 rings, 3 threads, slot 2. -/
theorem computeRingRange_formula_witness :
    (3 ≤ 4 → computeRingRange 4 3 2
        = InitResult.ok (2 * (4 / 3)) (min (2 * (4 / 3) + 4 / 3 - 1) (4 - 1))) ∧
    (3 > 4 → computeRingRange 4 3 2 = InitResult.tooManyThreads) :=
  computeRingRange_formula 4 3 2 (by decide)

/-- C5 counterexample: with 4 rings and 3 threads the last thread
(slot 2) receives the range [2,2]; its `ring_to` is 2, not
`rings_cnt - 1 = 3`, so the claimed ranges [0,0], [1,1], [2,3] do not
occur (the clamp in the source only ever lowers `ring_to`). -/
theorem computeRingRange_no_remainder_cex :
    computeRingRange 4 3 0 = InitResult.ok 0 0 ∧
    computeRingRange 4 3 1 = InitResult.ok 1 1 ∧
    computeRingRange 4 3 2 = InitResult.ok 2 2 ∧
    (2 : Nat) ≠ 4 - 1 := by decide

/-- C5 (amended): when `1 ≤ T < R` and `T` does not divide `R`, the last
thread (slot `T - 1`) receives the range
`[(T-1) * (R/T), T * (R/T) - 1]`, whose upper end is strictly below
`R - 1`: the trailing remainder rings are assigned to no thread. -/
theorem computeRingRange_last_thread (R T : Nat) (hT : 1 ≤ T) (hTR : T < R)
    (hnd : ¬ T ∣ R) :
    computeRingRange R T (T - 1)
      = InitResult.ok ((T - 1) * (R / T)) (T * (R / T) - 1) ∧
    T * (R / T) - 1 < R - 1 := by
  have hq1 : 1 ≤ R / T := Nat.one_le_div_iff (by omega) |>.mpr (by omega)
  have hmul : T * (R / T) ≤ R := by
    rw [Nat.mul_comm]
    exact Nat.div_mul_le_self R T
  have hne : T * (R / T) ≠ R := fun h => hnd ⟨R / T, h.symm⟩
  have hlt : T * (R / T) < R := Nat.lt_of_le_of_ne hmul hne
  have hexp : (T - 1) * (R / T) + R / T = T * (R / T) := by
    cases T with
    | zero => omega
    | succ t => simp [Nat.succ_sub_one, Nat.succ_mul]
  refine ⟨?_, by omega⟩
  unfold computeRingRange
  rw [if_neg (by omega)]
  simp only [InitResult.ok.injEq]
  refine ⟨trivial, ?_⟩
  rw [if_neg (by omega)]
  omega

/-- C5 witness: the amended statement at 4 rings and 3 threads. -/
theorem computeRingRange_last_thread_witness :
    computeRingRange 4 3 (3 - 1)
      = InitResult.ok ((3 - 1) * (4 / 3)) (3 * (4 / 3) - 1) ∧
    3 * (4 / 3) - 1 < 4 - 1 :=
  computeRingRange_last_thread 4 3 (by decide) (by decide) (by decide)

/-! ### C7: device registry refcounting (`NetmapOpen` / `NetmapClose`) -/

/-- `2^32`, the modulus of the unsigned 32-bit device refcount. -/
def U32 : Nat := 4294967296

/-- A registry entry: interface name and reference count (`ref` is an
`unsigned int` in the source, kept `< 2^32`). -/
structure RegDevice where
  ifname : String
  ref : Nat
  deriving Repr, DecidableEq

/-- The registry part of `NetmapOpen` (lines 287-308 and 430): search the
list for the name and increment `ref` on a hit; otherwise append a fresh
record at the tail.  The fresh record's `ref` is 0: the creation path
`memset`s the device and never increments the refcount. -/
def regOpen : List RegDevice → String → List RegDevice
  | [], name => [⟨name, 0⟩]
  | d :: ds, name =>
    if d.ifname = name then { d with ref := (d.ref + 1) % U32 } :: ds
    else d :: regOpen ds name

/-- `NetmapClose` (lines 451-478): find the device, decrement `ref`
(32-bit wrap-around), destroy and remove it exactly when the decremented
value is zero; return `-1` (not registered) when the device is absent. -/
def regClose : List RegDevice → String → List RegDevice × Int
  | [], _ => ([], -1)
  | d :: ds, name =>
    if d.ifname = name then
      if (d.ref + (U32 - 1)) % U32 = 0 then (ds, 0)
      else ({ d with ref := (d.ref + (U32 - 1)) % U32 } :: ds, 0)
    else
      ((regClose ds name).1.cons d, (regClose ds name).2)

/-- C7: the code creates a device with `ref == 0` and never increments it
on the creation path, so after acquiring "eth0" twice the refcount is 1
and a single release already decrements it to 0 and destroys the device
(the claim expects it to survive with refcount 1); conversely a single
acquire followed by a single release wraps the refcount to `2^32 - 1` and
the device is never destroyed. -/
theorem regOpenClose_refcount_bug :
    regOpen [] "eth0" = [⟨"eth0", 0⟩] ∧
    regOpen (regOpen [] "eth0") "eth0" = [⟨"eth0", 1⟩] ∧
    regClose (regOpen (regOpen [] "eth0") "eth0") "eth0" = ([], 0) ∧
    regClose (regOpen [] "eth0") "eth0" = ([⟨"eth0", U32 - 1⟩], 0) := by
  refine ⟨rfl, rfl, ?_, ?_⟩ <;>
    simp [regOpen, regClose, U32]

/-! ### C8: ring-registration rollback in `NetmapOpen` -/

/-- Outcome oracles for one `NetmapOpen` creation: whether the per-ring
`open("/dev/netmap")` and the `NIOCREGIF` ioctl succeed for ring `i`, and
whether the single `mmap` succeeds. -/
structure OpenEnv where
  ringOpenOk : Nat → Bool
  regifOk : Nat → Bool
  mmapOk : Bool

/-- State threaded through the ring-registration loop of `NetmapOpen`
(lines 380-417): whether the region has been mapped, how many per-ring
fds have been opened (they are rings `0 .. opened-1`), how many rings
fully registered (`success_cnt`), and whether the loop aborted through
the mmap-failure path (`goto error_fd`). -/
structure RingLoopState where
  mapped : Bool
  opened : Nat
  success_cnt : Nat
  mmap_failed : Bool
  deriving Repr, DecidableEq

/-- The ring loop itself: ring `i` first opens a fresh fd (a failure
breaks the loop), then registers it (a failure breaks the loop with the
fd still open), then - on the first registered ring - maps the shared
region (a failure exits through `error_fd`), and finally counts the ring
as fully registered. -/
def ringLoopGo (env : OpenEnv) : Nat → Nat → RingLoopState → RingLoopState
  | 0, _, st => st
  | n + 1, i, st =>
    if env.ringOpenOk i = false then st
    else if env.regifOk i = false then { st with opened := st.opened + 1 }
    else if st.mapped = false then
      if env.mmapOk = false then
        { st with opened := st.opened + 1, mmap_failed := true }
      else ringLoopGo env n (i + 1)
        { st with opened := st.opened + 1, mapped := true,
                  success_cnt := st.success_cnt + 1 }
    else ringLoopGo env n (i + 1)
      { st with opened := st.opened + 1, success_cnt := st.success_cnt + 1 }

/-- Observable outcome of the `NetmapOpen` creation path: per-ring fds
opened (rings `0 .. opened-1`), per-ring fds closed by the rollback
(rings `0 .. closed-1`), whether the region was mapped, whether `munmap`
ran, whether the device was inserted into the registry, and success. -/
structure OpenResult where
  opened : Nat
  closed : Nat
  mapped : Bool
  munmap_called : Bool
  inserted : Bool
  success : Bool
  deriving Repr, DecidableEq

/-- The ring-registration phase of `NetmapOpen` together with its
rollback (lines 380-433): an `mmap` failure jumps to `error_fd` (no ring
fd closed, no `munmap`); a broken loop closes the fds of the
`success_cnt` fully-registered rings and runs `munmap` (`error_mem`);
only a fully successful loop inserts the device into the registry. -/
def netmapOpenRings (env : OpenEnv) (cnt : Nat) : OpenResult :=
  if (ringLoopGo env cnt 0 ⟨false, 0, 0, false⟩).mmap_failed then
    ⟨(ringLoopGo env cnt 0 ⟨false, 0, 0, false⟩).opened, 0,
     (ringLoopGo env cnt 0 ⟨false, 0, 0, false⟩).mapped, false, false, false⟩
  else if (ringLoopGo env cnt 0 ⟨false, 0, 0, false⟩).success_cnt ≠ cnt then
    ⟨(ringLoopGo env cnt 0 ⟨false, 0, 0, false⟩).opened,
     (ringLoopGo env cnt 0 ⟨false, 0, 0, false⟩).success_cnt,
     (ringLoopGo env cnt 0 ⟨false, 0, 0, false⟩).mapped, true, false, false⟩
  else
    ⟨(ringLoopGo env cnt 0 ⟨false, 0, 0, false⟩).opened, 0,
     (ringLoopGo env cnt 0 ⟨false, 0, 0, false⟩).mapped, false, true, true⟩

/-- Post-condition of the ring loop used by the rollback theorem. -/
def ringLoopPost (st : RingLoopState) : Prop :=
  st.success_cnt ≤ st.opened ∧ st.opened ≤ st.success_cnt + 1 ∧
  (st.mmap_failed = true →
    st.mapped = false ∧ st.success_cnt = 0 ∧ st.opened = 1)

theorem ringLoopGo_post (env : OpenEnv) (n : Nat) :
    ∀ (i : Nat) (st : RingLoopState),
    st.opened = st.success_cnt → st.mmap_failed = false →
    (st.mapped = false → st.success_cnt = 0) →
    ringLoopPost (ringLoopGo env n i st) := by
  induction n with
  | zero =>
    intro i st h1 h2 h3
    unfold ringLoopGo ringLoopPost
    exact ⟨by omega, by omega, fun h => absurd h (by simp [h2])⟩
  | succ n ih =>
    intro i st h1 h2 h3
    unfold ringLoopGo
    split
    · unfold ringLoopPost
      exact ⟨by omega, by omega, fun h => absurd h (by simp [h2])⟩
    · split
      · unfold ringLoopPost
        exact ⟨by simp; omega, by simp; omega, fun h => absurd h (by simp [h2])⟩
      · split
        · split
          · unfold ringLoopPost
            have hm0 : st.success_cnt = 0 := h3 ‹st.mapped = false›
            refine ⟨by simp; omega, by simp; omega, fun _ => ⟨?_, ?_, ?_⟩⟩
            · simpa using ‹st.mapped = false›
            · simpa using hm0
            · simp
              omega
          · exact ih (i + 1) _ (by simp; omega) (by simpa using h2)
              (by intro hcon; simp at hcon)
        · exact ih (i + 1) _ (by simp; omega) (by simpa using h2)
            (by intro hcon
                simp at hcon
                exact absurd hcon (by simpa using ‹¬ st.mapped = false›))

/-- The one-ring environment whose `NIOCREGIF` fails. -/
def envRegifFailW : OpenEnv := ⟨fun _ => true, fun _ => false, true⟩

/-- C8 counterexample: a device with one ring whose `NIOCREGIF` fails:
the ring's fd was successfully opened (`opened = 1`) but the rollback
closes nothing (`closed = 0`, since it only closes the `success_cnt`
fully-registered rings), so a successfully opened ring handle is not
closed. -/
theorem netmapOpenRings_leak_cex :
    (netmapOpenRings envRegifFailW 1).success = false ∧
    (netmapOpenRings envRegifFailW 1).opened = 1 ∧
    (netmapOpenRings envRegifFailW 1).closed = 0 ∧
    (netmapOpenRings envRegifFailW 1).closed
      ≠ (netmapOpenRings envRegifFailW 1).opened := by
  exact ⟨rfl, rfl, rfl, by decide⟩

/-- C8 (amended): on any per-ring open/register/mmap failure the open
fails and the device is not inserted into the registry; the rollback
closes the fds of all fully-registered rings - at most the one ring
whose open succeeded but whose registration (or the mmap) failed keeps
its fd open - and the region is unmapped whenever it was mapped.  (Only
a fully successful loop inserts the device.) -/
theorem netmapOpenRings_rollback (env : OpenEnv) (cnt : Nat)
    (hfail : (netmapOpenRings env cnt).success = false) :
    (netmapOpenRings env cnt).inserted = false ∧
    (netmapOpenRings env cnt).closed ≤ (netmapOpenRings env cnt).opened ∧
    (netmapOpenRings env cnt).opened ≤ (netmapOpenRings env cnt).closed + 1 ∧
    ((netmapOpenRings env cnt).mapped = true →
      (netmapOpenRings env cnt).munmap_called = true) := by
  have hpost := ringLoopGo_post env cnt 0 ⟨false, 0, 0, false⟩ rfl rfl
    (fun _ => rfl)
  unfold ringLoopPost at hpost
  obtain ⟨hle, hub, hmmimp⟩ := hpost
  by_cases hmm : (ringLoopGo env cnt 0 ⟨false, 0, 0, false⟩).mmap_failed = true
  · obtain ⟨hmapped, hsucc, hopen⟩ := hmmimp hmm
    have hres : netmapOpenRings env cnt
        = ⟨(ringLoopGo env cnt 0 ⟨false, 0, 0, false⟩).opened, 0,
           (ringLoopGo env cnt 0 ⟨false, 0, 0, false⟩).mapped,
           false, false, false⟩ := by
      unfold netmapOpenRings
      rw [if_pos hmm]
    rw [hres]
    refine ⟨rfl, by simp, by simp [hopen], ?_⟩
    intro h
    rw [hmapped] at h
    exact absurd h (by simp)
  · by_cases hsc :
        (ringLoopGo env cnt 0 ⟨false, 0, 0, false⟩).success_cnt = cnt
    · have hres : netmapOpenRings env cnt
          = ⟨(ringLoopGo env cnt 0 ⟨false, 0, 0, false⟩).opened, 0,
             (ringLoopGo env cnt 0 ⟨false, 0, 0, false⟩).mapped,
             false, true, true⟩ := by
        unfold netmapOpenRings
        rw [if_neg hmm, if_neg (fun h => h hsc)]
      rw [hres] at hfail
      exact absurd hfail (by simp)
    · have hres : netmapOpenRings env cnt
          = ⟨(ringLoopGo env cnt 0 ⟨false, 0, 0, false⟩).opened,
             (ringLoopGo env cnt 0 ⟨false, 0, 0, false⟩).success_cnt,
             (ringLoopGo env cnt 0 ⟨false, 0, 0, false⟩).mapped,
             true, false, false⟩ := by
        unfold netmapOpenRings
        rw [if_neg hmm, if_pos hsc]
      rw [hres]
      exact ⟨rfl, hle, hub, fun _ => rfl⟩

/-- C8 witness: the amended rollback statement evaluated on the one-ring
environment whose registration fails. -/
theorem netmapOpenRings_rollback_witness :
    (netmapOpenRings envRegifFailW 1).inserted = false ∧
    (netmapOpenRings envRegifFailW 1).closed
      ≤ (netmapOpenRings envRegifFailW 1).opened ∧
    (netmapOpenRings envRegifFailW 1).opened
      ≤ (netmapOpenRings envRegifFailW 1).closed + 1 ∧
    ((netmapOpenRings envRegifFailW 1).mapped = true →
      (netmapOpenRings envRegifFailW 1).munmap_called = true) :=
  netmapOpenRings_rollback envRegifFailW 1 rfl

/-! ### C9: ring drain (`NetmapRingRead`) -/

/-- Environment oracles for one ring drain, indexed by the slot index the
loop is looking at: whether a compiled BPF filter is active
(`bpf_prog.bf_len` nonzero) and whether it accepts the slot, whether the
thread runs zero-copy, whether `PacketGetFromQueueOrAlloc` yields a
packet, whether `PacketSetData` resp. `PacketCopyData` succeeds, and
whether the downstream `TmThreadsSlotProcessPkt` accepts the packet. -/
structure DrainEnv where
  bpfActive : Bool
  bpfAccept : Nat → Bool
  zeroCopy : Bool
  poolGive : Nat → Bool
  setDataOk : Nat → Bool
  copyDataOk : Nat → Bool
  processOk : Nat → Bool

/-- Result of `NetmapRingRead`: the ring descriptor, the thread-local
`pkts` / `bytes` counters afterwards, and the return code (`true` for
`NETMAP_OK`). -/
structure RingReadResult where
  ring : NetmapRingDesc
  pkts : Nat
  bytes : Nat
  ok : Bool
  deriving Repr, DecidableEq

/-- The drain loop of `NetmapRingRead` (lines 678-743): one iteration per
available slot; a BPF reject advances `cur` without counting; a pool
failure aborts before counting; a data-binding failure or a downstream
refusal aborts after `pkts`/`bytes` were counted.  An abort returns
`NETMAP_FAILURE` without committing `cur`. -/
def ringReadGo (env : DrainEnv) (ring : NetmapRingDesc) :
    Nat → Nat → Nat → Nat → Nat × Nat × Nat × Bool
  | 0, cur, pkts, bytes => (cur, pkts, bytes, true)
  | avail + 1, cur, pkts, bytes =>
    if env.bpfActive = true ∧ env.bpfAccept cur = false then
      ringReadGo env ring avail (nm_ring_next ring cur) pkts bytes
    else if env.poolGive cur = false then
      (cur, pkts, bytes, false)
    else if env.zeroCopy = true then
      if env.setDataOk cur = false then
        (cur, pkts + 1, bytes + (ring.slot.getD cur default).len, false)
      else if env.processOk cur = false then
        (cur, pkts + 1, bytes + (ring.slot.getD cur default).len, false)
      else
        ringReadGo env ring avail (nm_ring_next ring cur) (pkts + 1)
          (bytes + (ring.slot.getD cur default).len)
    else
      if env.copyDataOk cur = false then
        (cur, pkts + 1, bytes + (ring.slot.getD cur default).len, false)
      else if env.processOk cur = false then
        (cur, pkts + 1, bytes + (ring.slot.getD cur default).len, false)
      else
        ringReadGo env ring avail (nm_ring_next ring cur) (pkts + 1)
          (bytes + (ring.slot.getD cur default).len)

/-- `NetmapRingRead` (lines 670-747): drain `nm_ring_space ring` slots
starting at `ring.cur`; the commit `ring.head = ring.cur = cur` runs only
when the entire available batch was processed. -/
def NetmapRingRead (env : DrainEnv) (ring : NetmapRingDesc)
    (pkts bytes : Nat) : RingReadResult :=
  if (ringReadGo env ring (nm_ring_space ring) ring.cur pkts bytes).2.2.2 then
    ⟨{ ring with
        head := (ringReadGo env ring (nm_ring_space ring) ring.cur pkts bytes).1,
        cur := (ringReadGo env ring (nm_ring_space ring) ring.cur pkts bytes).1 },
     (ringReadGo env ring (nm_ring_space ring) ring.cur pkts bytes).2.1,
     (ringReadGo env ring (nm_ring_space ring) ring.cur pkts bytes).2.2.1, true⟩
  else
    ⟨ring,
     (ringReadGo env ring (nm_ring_space ring) ring.cur pkts bytes).2.1,
     (ringReadGo env ring (nm_ring_space ring) ring.cur pkts bytes).2.2.1, false⟩

/-- C9: when a drain aborts (pool exhausted, data binding failed, or the
downstream stage refused a packet), the ring descriptor - in particular
`head` and `cur` - is left exactly as before the drain began: the commit
`head = cur` runs only when the whole batch was processed, so every slot
examined by the aborted drain stays unreleased and is read again on the
next drain. -/
theorem netmapRingRead_abort_keeps_ring (env : DrainEnv)
    (ring : NetmapRingDesc) (pkts bytes : Nat)
    (h : (NetmapRingRead env ring pkts bytes).ok = false) :
    (NetmapRingRead env ring pkts bytes).ring = ring ∧
    (NetmapRingRead env ring pkts bytes).ring.head = ring.head ∧
    (NetmapRingRead env ring pkts bytes).ring.cur = ring.cur := by
  by_cases hc :
      (ringReadGo env ring (nm_ring_space ring) ring.cur pkts bytes).2.2.2 = true
  · have hok : (NetmapRingRead env ring pkts bytes).ok = true := by
      unfold NetmapRingRead
      rw [if_pos hc]
    rw [h] at hok
    exact absurd hok (by simp)
  · have hres : (NetmapRingRead env ring pkts bytes).ring = ring := by
      unfold NetmapRingRead
      rw [if_neg hc]
    exact ⟨hres, by rw [hres], by rw [hres]⟩

/-- The drain environment whose packet pool is empty. -/
def drainEnvAbortW : DrainEnv :=
  ⟨false, fun _ => true, true, fun _ => false, fun _ => true,
   fun _ => true, fun _ => true⟩

/-- C9 witness: a drain of the concrete RX ring that aborts on the first
slot because the pool is empty leaves the ring untouched. -/
theorem netmapRingRead_abort_keeps_ring_witness :
    (NetmapRingRead drainEnvAbortW rxRingW 0 0).ring = rxRingW ∧
    (NetmapRingRead drainEnvAbortW rxRingW 0 0).ring.head = rxRingW.head ∧
    (NetmapRingRead drainEnvAbortW rxRingW 0 0).ring.cur = rxRingW.cur :=
  netmapRingRead_abort_keeps_ring drainEnvAbortW rxRingW 0 0 rfl

/-! ### C10: counter flush (`NetmapDumpCounters`) -/

/-- The shared statistics touched by the flush: the two stats-registry
counters and the two livedev aggregates. -/
structure StatsState where
  kernel_packets : Nat
  kernel_drops : Nat
  livedev_pkts : Nat
  livedev_drop : Nat
  deriving Repr, DecidableEq

/-- `NetmapDumpCounters` (lines 484-492): add the thread-local `pkts` to
the kernel-packets counter and the livedev `pkts` aggregate, add the
thread-local `drops` to the kernel-drops counter and the livedev `drop`
aggregate, then zero `pkts` and `drops`.  `bytes` is not touched. -/
def NetmapDumpCounters (ntv : NetmapThreadVars) (st : StatsState) :
    NetmapThreadVars × StatsState :=
  ({ ntv with pkts := 0, drops := 0 },
   { kernel_packets := st.kernel_packets + ntv.pkts,
     kernel_drops := st.kernel_drops + ntv.drops,
     livedev_pkts := st.livedev_pkts + ntv.pkts,
     livedev_drop := st.livedev_drop + ntv.drops })

/-- `ReceiveNetmapThreadExitStats` (lines 842-853): flush the counters a
last time, then print the thread-lifetime `bytes` value (returned here as
the `Nat` component). -/
def ReceiveNetmapThreadExitStats (ntv : NetmapThreadVars) (st : StatsState) :
    (NetmapThreadVars × StatsState) × Nat :=
  (NetmapDumpCounters ntv st, (NetmapDumpCounters ntv st).1.bytes)

/-- C10: every counter flush adds `pkts` to the kernel-packets statistic
and the livedev packet aggregate and `drops` to the kernel-drops
statistic and the livedev drop aggregate, and resets `pkts` and `drops`
to zero; the thread-local `bytes` counter is never reset, never
influences any shared counter, and is the value printed at thread exit. -/
theorem netmapDumpCounters_spec (ntv : NetmapThreadVars) (st : StatsState) :
    (NetmapDumpCounters ntv st).2.kernel_packets
      = st.kernel_packets + ntv.pkts ∧
    (NetmapDumpCounters ntv st).2.livedev_pkts = st.livedev_pkts + ntv.pkts ∧
    (NetmapDumpCounters ntv st).2.kernel_drops = st.kernel_drops + ntv.drops ∧
    (NetmapDumpCounters ntv st).2.livedev_drop = st.livedev_drop + ntv.drops ∧
    (NetmapDumpCounters ntv st).1.pkts = 0 ∧
    (NetmapDumpCounters ntv st).1.drops = 0 ∧
    (NetmapDumpCounters ntv st).1.bytes = ntv.bytes ∧
    (∀ b : Nat, (NetmapDumpCounters { ntv with bytes := b } st).2
        = (NetmapDumpCounters ntv st).2) ∧
    (ReceiveNetmapThreadExitStats ntv st).2 = ntv.bytes :=
  ⟨rfl, rfl, rfl, rfl, rfl, rfl, rfl, fun _ => rfl, rfl⟩

end Netmap
